import Mathlib

/-!
Verification of the ToyFrameV concurrency and logging core.

This file shallowly embeds the data model and operations of
`include/ToyFrameV/Core/Threading.h`, `src/Core/Threading.cpp`,
`include/ToyFrameV/Core/Log.h`, `src/Core/Log.cpp` and
`third_party/fmt/core.h`, and proves or refutes the specification
claims about them.  Each definition is translated from the C++
source; `spec_` prefixed definitions follow the specification text
and are compared with the source-derived ones.
-/

namespace ToyFrameV

/-! ### FutureState and SharedState (Threading.h lines 20-26, 78-117) -/

/-- The five states of an asynchronous operation (enum class FutureState). -/
inductive FutureState where
  | Pending
  | Running
  | Ready
  | Cancelled
  | Failed
deriving DecidableEq, Repr

/-- Model of detail::SharedState<T>.  The `state` field and the
condition-variable signalling live in SharedStateBase; `value` models
the std::optional<T> slot and `exception` the captured
std::exception_ptr (represented by its message). -/
structure SharedState (α : Type) where
  state : FutureState
  value : Option α
  exception : Option String
deriving DecidableEq, Repr

/-- A SharedState as freshly constructed by ThreadPool::Submit. -/
def initState : SharedState Nat := ⟨FutureState.Pending, none, none⟩

/-- detail::SharedStateBase::TryCancel (Threading.h lines 238-246):
succeeds only from Pending, moving the state to Cancelled. -/
def tryCancel {α : Type} (s : SharedState α) : SharedState α × Bool :=
  if s.state = FutureState.Pending then
    ({ s with state := FutureState.Cancelled }, true)
  else
    (s, false)

/-- detail::SharedStateBase::IsCancelled (Threading.h lines 248-251). -/
def sharedIsCancelled {α : Type} (s : SharedState α) : Bool :=
  s.state = FutureState.Cancelled

/-- detail::SharedStateBase::IsDone (Threading.h lines 253-256). -/
def sharedIsDone {α : Type} (s : SharedState α) : Bool :=
  s.state = FutureState.Ready ∨ s.state = FutureState.Cancelled ∨
    s.state = FutureState.Failed

/-- detail::SharedStateBase::MarkRunning (Threading.h lines 258-263):
Pending to Running, no-op in any other state. -/
def markRunning {α : Type} (s : SharedState α) : SharedState α :=
  if s.state = FutureState.Pending then
    { s with state := FutureState.Running }
  else
    s

/-- detail::SharedState<T>::SetValue (Threading.h lines 97-105): stores
the value and sets the state to Ready, unconditionally. -/
def setValue {α : Type} (v : α) (s : SharedState α) : SharedState α :=
  { s with value := some v, state := FutureState.Ready }

/-- detail::SharedStateBase::MarkFailed (Threading.h lines 265-272):
stores the exception and sets the state to Failed, unconditionally. -/
def markFailed {α : Type} (e : String) (s : SharedState α) : SharedState α :=
  { s with exception := some e, state := FutureState.Failed }

/-- detail::SharedStateBase::NotifyReady (Threading.h lines 274-280):
sets the state to the given final state, unconditionally. -/
def notifyReady {α : Type} (fs : FutureState) (s : SharedState α) :
    SharedState α :=
  { s with state := fs }

/-! ### Operation sequences over a SharedState

Every mutating member function of SharedStateBase / SharedState takes
the state mutex, so a concurrent execution is an interleaving: a
sequence of these atomic operations. -/

/-- One atomic SharedState operation (value type Nat). -/
inductive SSOp where
  | tryCancelOp
  | markRunningOp
  | setValueOp (v : Nat)
  | markFailedOp (e : String)
  | notifyReadyOp (fs : FutureState)
deriving DecidableEq, Repr

/-- Apply one atomic operation to a SharedState. -/
def applyOp (s : SharedState Nat) : SSOp → SharedState Nat
  | SSOp.tryCancelOp => (tryCancel s).1
  | SSOp.markRunningOp => markRunning s
  | SSOp.setValueOp v => setValue v s
  | SSOp.markFailedOp e => markFailed e s
  | SSOp.notifyReadyOp fs => notifyReady fs s

/-- Run a sequence of atomic operations. -/
def runOps (s : SharedState Nat) (ops : List SSOp) : SharedState Nat :=
  ops.foldl applyOp s

/-- A state is terminal when it is Ready, Cancelled or Failed. -/
def isTerminal (fs : FutureState) : Bool :=
  fs = FutureState.Ready ∨ fs = FutureState.Cancelled ∨ fs = FutureState.Failed

/-! ### The worker / Cancel interleavings (Threading.h lines 410-429)

The task closure built by ThreadPool::Submit is

    if (state->IsCancelled()) { state->NotifyReady(Cancelled); return; }
    state->MarkRunning();
    try { result = fn(); state->SetValue(result); }
    catch (...) { state->MarkFailed(current_exception()); }

Each SharedState member call holds the state mutex, so a concurrent
Future::Cancel() serialises against them and can land at any of the
points between them.  `runWorkerCancel cancelPos` runs the closure with
one concurrent TryCancel placed at atomic point `cancelPos`:
0 = before the IsCancelled check, 1 = between the check and
MarkRunning (or NotifyReady on the cancelled branch), 2 = after
MarkRunning but before the callable runs, 3 = after the callable but
before SetValue/MarkFailed, 4 or more = after the closure finished. -/

/-- Result of one worker execution with one interleaved cancel:
the final SharedState, what the concurrent Cancel call returned, and
whether the submitted callable was invoked. -/
structure ScenarioResult where
  final : SharedState Nat
  cancelRet : Bool
  invoked : Bool
deriving DecidableEq, Repr

/-- Run the Submit task closure on a fresh SharedState with a single
concurrent TryCancel at atomic point `cancelPos` (see above).
`fnFails` selects whether the callable throws; `v` is its result. -/
def runWorkerCancel (cancelPos : Nat) (fnFails : Bool) (v : Nat) :
    ScenarioResult :=
  let p0 := if cancelPos = 0 then tryCancel initState else (initState, false)
  if sharedIsCancelled p0.1 then
    -- worker: state->NotifyReady(FutureState::Cancelled); return;
    let p1 := if cancelPos = 1 then tryCancel p0.1 else (p0.1, p0.2)
    let s2 := notifyReady FutureState.Cancelled p1.1
    let p3 := if 2 ≤ cancelPos then tryCancel s2 else (s2, p1.2)
    ⟨p3.1, p3.2, false⟩
  else
    let p1 := if cancelPos = 1 then tryCancel p0.1 else (p0.1, p0.2)
    let s2 := markRunning p1.1
    let p3 := if cancelPos = 2 then tryCancel s2 else (s2, p1.2)
    -- the callable fn() is invoked here
    let p4 := if cancelPos = 3 then tryCancel p3.1 else (p3.1, p3.2)
    let s5 := if fnFails then markFailed "boom" p4.1 else setValue v p4.1
    let p6 := if 4 ≤ cancelPos then tryCancel s5 else (s5, p4.2)
    ⟨p6.1, p6.2, true⟩

/-! ### Future<T> observers and Get (Threading.h lines 124-165, 283-384)

A Future wraps a shared_ptr to a SharedState; a default-constructed
Future holds none. -/

/-- Future<T>::IsValid. -/
def futureIsValid {α : Type} (m : Option (SharedState α)) : Bool :=
  m.isSome

/-- Future<T>::IsReady (Threading.h lines 283-288). -/
def futureIsReady {α : Type} : Option (SharedState α) → Bool
  | none => false
  | some s => s.state = FutureState.Ready

/-- Future<T>::IsCancelled (Threading.h lines 290-293). -/
def futureIsCancelled {α : Type} : Option (SharedState α) → Bool
  | none => false
  | some s => sharedIsCancelled s

/-- Future<T>::GetState (Threading.h lines 295-300): a null state
reports Cancelled. -/
def futureGetState {α : Type} : Option (SharedState α) → FutureState
  | none => FutureState.Cancelled
  | some s => s.state

/-- Future<T>::Wait (Threading.h lines 302-313).  A null state returns
false immediately.  With timeout 0 the call blocks until the state is
terminal and returns true.  With a nonzero timeout the returned value
is the wait predicate at expiry; the model evaluates it on the
snapshot state (the result when no transition happens meanwhile). -/
def futureWait {α : Type} (timeoutMs : Nat) :
    Option (SharedState α) → Bool
  | none => false
  | some s => if timeoutMs = 0 then true else isTerminal s.state

/-- Future<T>::Cancel (Threading.h lines 315-318). -/
def futureCancel {α : Type} :
    Option (SharedState α) → Option (SharedState α) × Bool
  | none => (none, false)
  | some s => ((tryCancel s).1, (tryCancel s).2)

/-- Outcome of Future<T>::Get: a value, a runtime_error with the given
message, or the re-raised captured exception. -/
inductive GetOutcome (α : Type) where
  | ok (v : α)
  | err (msg : String)
  | reraised (e : String)
deriving DecidableEq, Repr

/-- Future<T>::Get (Threading.h lines 320-337), evaluated on the state
observed after the unconditional Wait(0): throws "Future has no state"
on a null state, "Future was cancelled" on Cancelled, re-raises on
Failed with a stored exception, otherwise returns the stored value or
throws "Future has no value" when none is stored. -/
def futureGet {α : Type} : Option (SharedState α) → GetOutcome α
  | none => GetOutcome.err "Future has no state"
  | some s =>
    if s.state = FutureState.Cancelled then
      GetOutcome.err "Future was cancelled"
    else if s.state = FutureState.Failed ∧ s.exception.isSome then
      GetOutcome.reraised (s.exception.getD "")
    else
      match s.value with
      | none => GetOutcome.err "Future has no value"
      | some v => GetOutcome.ok v

/-! ### ThreadPool queue state (Threading.h lines 170-210, 431-441 and
Threading.cpp lines 20-30, 43-80)

The queue state guarded by m_mutex: the pending-task deque (each task
carries the SharedState it will resolve), the stopping flag and the
configured capacity. -/

/-- The ThreadPool fields guarded by m_mutex. -/
structure PoolState where
  tasks : List (SharedState Nat)
  stopping : Bool
  maxQueueSize : Nat
deriving DecidableEq, Repr

/-- The predicate ThreadPool::Submit waits on before enqueuing
(Threading.h line 433): stopping, or the queue is below capacity. -/
def submitWaitPred (p : PoolState) : Bool :=
  p.stopping || decide (p.tasks.length < p.maxQueueSize)

/-- The enqueue section of ThreadPool::Submit (Threading.h lines
431-441), entered once submitWaitPred holds with the lock held: when
stopping, TryCancel the freshly created SharedState and return it
without enqueuing; otherwise push the task.  Returns the new pool
state and the SharedState backing the Future handed to the caller. -/
def submitEnqueue (p : PoolState) : PoolState × SharedState Nat :=
  if p.stopping then
    (p, (tryCancel initState).1)
  else
    ({ p with tasks := p.tasks ++ [initState] }, initState)

/-- The predicate ThreadPool::Dequeue waits on (Threading.cpp line
22): stopping, or the queue is non-empty. -/
def dequeueWaitPred (p : PoolState) : Bool :=
  p.stopping || !p.tasks.isEmpty

/-- ThreadPool::Dequeue (Threading.cpp lines 20-30), entered once
dequeueWaitPred holds: returns none (worker exits) when stopping with
an empty queue, otherwise pops the front task. -/
def dequeue (p : PoolState) : Option (SharedState Nat) × PoolState :=
  if p.stopping ∧ p.tasks = [] then
    (none, p)
  else
    match p.tasks with
    | [] => (none, p)
    | t :: rest => (some t, { p with tasks := rest })

/-- ThreadPool::CancelAllPending (Threading.cpp lines 43-53): cancels
every queued state and clears the queue. -/
def cancelAllPending (p : PoolState) : PoolState :=
  { p with tasks := [] }

/-- The state change of ThreadPool::Shutdown (Threading.cpp lines
55-80): idempotent; sets stopping, and discards the queue when not
waiting for it to drain. -/
def poolShutdown (wait : Bool) (p : PoolState) : PoolState :=
  if p.stopping then p
  else { p with stopping := true, tasks := if wait then p.tasks else [] }

/-! ### The fmt formatting helper (third_party/fmt/core.h)

Strings are modelled as lists of characters; the type-erased argument
pack is a list of already-stringified arguments (FormatOne renders
each argument through an ostringstream).  The braces are named
constants so the development never spells them. -/

/-- The open-brace character. -/
def lbrace : Char := Char.ofNat 123

/-- The close-brace character. -/
def rbrace : Char := Char.ofNat 125

/-- The message of the runtime_error thrown on an unmatched open
brace (fmt/core.h line 54). -/
def fmtErrMsg : String := "fmt: unmatched open brace"

/-- fmt::detail::AppendLiteral (fmt/core.h lines 17-29): copy literal
text, collapsing each double close brace to a single one. -/
def appendLiteral : List Char → List Char → List Char
  | out, [] => out
  | out, [c] => out ++ [c]
  | out, c :: d :: rest2 =>
    if c = rbrace ∧ d = rbrace then appendLiteral (out ++ [rbrace]) rest2
    else appendLiteral (out ++ [c]) (d :: rest2)

/-- The close-brace search of fmt/core.h line 52: drop everything up
to and including the first close brace, none when there is none. -/
def dropToClose : List Char → Option (List Char)
  | [] => none
  | c :: rest => if c = rbrace then some rest else dropToClose rest

/-- fmt::detail::ReplaceNextPlaceholder (fmt/core.h lines 33-62) on
the remaining format text: scans for a placeholder, copying literal
text (with double-close-brace collapsing) and unescaping double open
braces; errors on an unmatched open brace; returns whether a real
placeholder was found together with the output and the rest of the
format text. -/
def replaceNext : List Char → List Char →
    Except String (Bool × List Char × List Char)
  | out, [] => Except.ok (false, out, [])
  | out, [c] =>
    if c = lbrace then Except.error fmtErrMsg
    else Except.ok (false, out ++ [c], [])
  | out, c :: d :: rest2 =>
    if c = lbrace then
      if d = lbrace then
        replaceNext (out ++ [lbrace]) rest2
      else
        match dropToClose (d :: rest2) with
        | none => Except.error fmtErrMsg
        | some rem => Except.ok (true, out, rem)
    else if c = rbrace ∧ d = rbrace then
      replaceNext (out ++ [rbrace]) rest2
    else
      replaceNext (out ++ [c]) (d :: rest2)

/-- fmt::detail::FormatImpl (fmt/core.h lines 71-87): with no
arguments left, append the remaining format text through
AppendLiteral; otherwise substitute the next placeholder with the
next argument, or drop the argument when no placeholder remains. -/
def formatImpl : List Char → List Char → List String →
    Except String (List Char)
  | out, fmt, [] => Except.ok (appendLiteral out fmt)
  | out, fmt, a :: rest =>
    match replaceNext out fmt with
    | Except.error e => Except.error e
    | Except.ok (true, out2, fmt2) =>
        formatImpl (out2 ++ a.toList) fmt2 rest
    | Except.ok (false, out2, fmt2) =>
        formatImpl out2 fmt2 rest

/-- fmt::format (fmt/core.h lines 91-98) over character lists. -/
def fmtFormat (fmt : List Char) (args : List String) :
    Except String (List Char) :=
  formatImpl [] fmt args

/-! ### The Log facade (Log.h lines 16-23, 109-125 and Log.cpp lines
28-91, 263-356) -/

/-- enum class Level (Log.h lines 16-23). -/
inductive Level where
  | Trace
  | Debug
  | Info
  | Warning
  | Error
  | Fatal
deriving DecidableEq, Repr

/-- The underlying integer of each Level (Log.h lines 16-23). -/
def levelToInt : Level → Nat
  | Level.Trace => 0
  | Level.Debug => 1
  | Level.Info => 2
  | Level.Warning => 3
  | Level.Error => 4
  | Level.Fatal => 5

/-- LevelToString (Log.cpp lines 30-40). -/
def levelToString : Level → String
  | Level.Trace => "Trace"
  | Level.Debug => "Debug"
  | Level.Info => "Info"
  | Level.Warning => "Warning"
  | Level.Error => "Error"
  | Level.Fatal => "Fatal"

/-- The initial runtime level of LoggerInstance (Log.cpp line 81). -/
def defaultRuntimeLevel : Level := Level.Debug

/-- Log::IsLevelEnabled (Log.cpp lines 328-332): a call's level passes
when its integer value is at least the runtime level's. -/
def isLevelEnabled (runtimeLevel lvl : Level) : Bool :=
  levelToInt runtimeLevel ≤ levelToInt lvl

/-- The category-enabled map of LoggerInstance, modelled as an
association list (std::unordered_map<std::string, bool>). -/
def CategoryMap : Type := List (String × Bool)

/-- Lookup in the category map (categoryEnabled.find). -/
def lookupCat : List (String × Bool) → String → Option Bool
  | [], _ => none
  | (k, b) :: rest, c => if k = c then some b else lookupCat rest c

/-- Log::SetCategoryEnabled (Log.cpp lines 275-279):
categoryEnabled[category] = enabled, overwriting or inserting. -/
def setCategoryEnabled : List (String × Bool) → String → Bool →
    List (String × Bool)
  | [], c, b => [(c, b)]
  | (k, v) :: rest, c, b =>
    if k = c then (k, b) :: rest
    else (k, v) :: setCategoryEnabled rest c b

/-- Log::IsCategoryEnabled (Log.cpp lines 281-288): the empty category
is always enabled; otherwise an absent entry means enabled. -/
def isCategoryEnabled (m : List (String × Bool)) (c : String) : Bool :=
  if c = "" then true
  else
    match lookupCat m c with
    | none => true
    | some b => b

/-- The filter run by Log::Write before any formatting (Log.h lines
109-120): the runtime level gate, then the category gate for
non-empty categories.  True exactly when the message is formatted and
submitted to the sinks. -/
def writeDelivers (runtimeLevel : Level) (m : List (String × Bool))
    (lvl : Level) (cat : String) : Bool :=
  if !isLevelEnabled runtimeLevel lvl then false
  else if !(cat = "") && !isCategoryEnabled m cat then false
  else true

/-! ### Rendered log line (Log.cpp lines 46-71) -/

/-- Zero-pad the decimal rendering of `n` to width `w` (the effect of
std::setw/std::setfill and of the zero-padded strftime fields). -/
def padZeros (w n : Nat) : String :=
  String.mk (List.replicate (w - (toString n).length) (Char.ofNat 48))
    ++ toString n

/-- The components of the std::tm plus milliseconds used by
FormatTimestamp (Log.cpp lines 46-59). -/
structure Tm where
  year : Nat
  month : Nat
  day : Nat
  hour : Nat
  minute : Nat
  second : Nat
  millis : Nat
deriving DecidableEq, Repr

/-- FormatTimestamp (Log.cpp lines 46-59): put_time with
"%Y-%m-%d %H:%M:%S", a dot, and the milliseconds padded to width 3. -/
def formatTimestamp (t : Tm) : String :=
  padZeros 4 t.year ++ "-" ++ padZeros 2 t.month ++ "-" ++ padZeros 2 t.day
    ++ " " ++ padZeros 2 t.hour ++ ":" ++ padZeros 2 t.minute ++ ":"
    ++ padZeros 2 t.second ++ "." ++ padZeros 3 t.millis

/-- The fields of a LogMessage used by BuildFormatted (Log.h lines
35-43): level, category, text, timestamp and thread id. -/
structure LogMessageM where
  level : Level
  category : String
  text : String
  tm : Tm
  threadId : Nat
deriving DecidableEq, Repr

/-- BuildFormatted (Log.cpp lines 61-71): the successive ostringstream
appends building the fully rendered line; the category bracket is
appended only when the category is non-empty. -/
def buildFormatted (msg : LogMessageM) : String :=
  let s1 := "[" ++ formatTimestamp msg.tm ++ "]"
  let s2 := s1 ++ "[tid:" ++ toString msg.threadId ++ "]"
  let s3 := s2 ++ "[" ++ levelToString msg.level ++ "]"
  let s4 := if msg.category = "" then s3 else s3 ++ "[" ++ msg.category ++ "]"
  s4 ++ " " ++ msg.text

/-- Modelled from the spec (section 6, rendered log line layout): the
bracketed fields `[timestamp][tid:n][Level]`, a `[category]` bracket
present exactly when the category is non-empty, then a space and the
text. -/
def spec_renderedLine (msg : LogMessageM) : String :=
  String.join
      (["[" ++ formatTimestamp msg.tm ++ "]",
        "[tid:" ++ toString msg.threadId ++ "]",
        "[" ++ levelToString msg.level ++ "]"]
        ++ (if msg.category = "" then [] else ["[" ++ msg.category ++ "]"]))
    ++ " " ++ msg.text

/-! ### FileSink rotation (Log.cpp lines 174-259)

The directory around the sink is modelled as a map from generation
number to file content: generation 0 is the file at the configured
path, generation n is `path.n`.  The sink state carries the tracked
size (m_currentSize) and whether the stream is open. -/

/-- FileSink::Options fields relevant to rotation (Log.h lines 58-64). -/
structure FileSinkOptions where
  maxBytes : Nat
  maxFiles : Nat
deriving DecidableEq, Repr

/-- The sink's file-system-facing state: content per generation,
tracked size of the active file, stream-open flag. -/
structure FsState where
  files : Nat → Option String
  currentSize : Nat
  streamOpen : Bool

/-- One iteration of the rotation loop (Log.cpp lines 243-255) at
index `i`: when generation `i` exists, rename it over generation
`i + 1`. -/
def renameStep (files : Nat → Option String) (i : Nat) :
    Nat → Option String :=
  match files i with
  | none => files
  | some c => fun k =>
      if k = i + 1 then some c
      else if k = i then none
      else files k

/-- The rotation loop of Log.cpp lines 243-255: iterate `renameStep`
for indices `n - 1` down to 0. -/
def rotateLoop (files : Nat → Option String) : Nat → (Nat → Option String)
  | 0 => files
  | n + 1 => rotateLoop (renameStep files n) n

/-- FileSink::OpenFile (Log.cpp lines 208-221): open the path in
append mode (creating it when absent) and set the tracked size to the
end-of-file position. -/
def openFile (st : FsState) : FsState :=
  let content := (st.files 0).getD ""
  { files := fun k => if k = 0 then some content else st.files k,
    currentSize := content.length,
    streamOpen := true }

/-- FileSink::RotateIfNeeded (Log.cpp lines 229-259): no-op when
maxBytes is 0, when the stream is closed, when maxFiles is 0, or when
the tracked size plus the message still stays below maxBytes;
otherwise close the file, run the rename loop, reopen a fresh active
file and reset the tracked size to 0. -/
def rotateIfNeeded (opts : FileSinkOptions) (messageSize : Nat)
    (st : FsState) : FsState :=
  if opts.maxBytes = 0 ∨ st.streamOpen = false then st
  else if opts.maxFiles = 0 then st
  else if st.currentSize + messageSize < opts.maxBytes then st
  else
    let rotated := rotateLoop st.files opts.maxFiles
    let reopened := openFile { files := rotated,
                               currentSize := st.currentSize,
                               streamOpen := false }
    { reopened with currentSize := 0 }

/-- The per-record body of FileSink::WorkerLoop (Log.cpp lines
188-200) when the stream is open: rotate if needed with the rendered
size plus one for the newline, append the line and a newline, and add
that many bytes to the tracked size. -/
def processRecord (opts : FileSinkOptions) (st : FsState)
    (line : String) : FsState :=
  let st1 := if st.streamOpen then st else openFile st
  let st2 := rotateIfNeeded opts (line.length + 1) st1
  { st2 with
      files := fun k =>
        if k = 0 then some ((st2.files 0).getD "" ++ line ++ "\n")
        else st2.files k,
      currentSize := st2.currentSize + line.length + 1 }

/-! ## Theorems -/

/-- C10: a freshly initialized logger has runtime level Debug, so
before any SetLevel call IsLevelEnabled rejects Trace and accepts
every level from Debug through Fatal. -/
theorem c10_default_level :
    defaultRuntimeLevel = Level.Debug
    ∧ isLevelEnabled defaultRuntimeLevel Level.Trace = false
    ∧ isLevelEnabled defaultRuntimeLevel Level.Debug = true
    ∧ isLevelEnabled defaultRuntimeLevel Level.Info = true
    ∧ isLevelEnabled defaultRuntimeLevel Level.Warning = true
    ∧ isLevelEnabled defaultRuntimeLevel Level.Error = true
    ∧ isLevelEnabled defaultRuntimeLevel Level.Fatal = true := by
  decide

/-- C9: on an invalid Future with no backing state, IsValid, IsReady
and IsCancelled return false, GetState returns Cancelled, Wait returns
false immediately for every timeout, Cancel returns false, and only
Get raises an error (the "Future has no state" runtime_error). -/
theorem c9_invalid_future :
    futureIsValid (none : Option (SharedState Nat)) = false
    ∧ futureIsReady (none : Option (SharedState Nat)) = false
    ∧ futureIsCancelled (none : Option (SharedState Nat)) = false
    ∧ futureGetState (none : Option (SharedState Nat)) = FutureState.Cancelled
    ∧ (∀ timeoutMs : Nat,
        futureWait timeoutMs (none : Option (SharedState Nat)) = false)
    ∧ (futureCancel (none : Option (SharedState Nat))).2 = false
    ∧ futureGet (none : Option (SharedState Nat))
        = GetOutcome.err "Future has no state" := by
  exact ⟨rfl, rfl, rfl, rfl, fun _ => rfl, rfl, rfl⟩

/-- C5: Get on an invalid Future fails immediately with the
"no state" error; otherwise Get waits unconditionally (Wait with
timeout 0 returns only once the state is terminal), and on a terminal
state it fails with "Future was cancelled" when Cancelled, re-raises
the captured failure when Failed, and returns the stored value when
Ready. -/
theorem c5_get (α : Type) (s : SharedState α) (e : String) (v : α) :
    futureGet (none : Option (SharedState α))
        = GetOutcome.err "Future has no state"
    ∧ futureWait 0 (some s) = true
    ∧ (s.state = FutureState.Cancelled →
        futureGet (some s) = GetOutcome.err "Future was cancelled")
    ∧ (s.state = FutureState.Failed → s.exception = some e →
        futureGet (some s) = GetOutcome.reraised e)
    ∧ (s.state = FutureState.Ready → s.value = some v →
        futureGet (some s) = GetOutcome.ok v) := by
  refine ⟨rfl, rfl, ?_, ?_, ?_⟩
  · intro h
    simp [futureGet, h]
  · intro h he
    simp [futureGet, h, he]
  · intro h hv
    simp [futureGet, h, hv]

/-- Closed witness for c5_get, evaluating Get at a cancelled, a
failed and a ready SharedState. -/
theorem c5_get_witness :
    futureGet (some (⟨FutureState.Cancelled, none, none⟩ : SharedState Nat))
        = GetOutcome.err "Future was cancelled"
    ∧ futureGet (some (⟨FutureState.Failed, none, some "boom"⟩ :
        SharedState Nat)) = GetOutcome.reraised "boom"
    ∧ futureGet (some (⟨FutureState.Ready, some 7, none⟩ : SharedState Nat))
        = GetOutcome.ok 7 :=
  ⟨(c5_get Nat ⟨FutureState.Cancelled, none, none⟩ "x" 0).2.2.1 rfl,
   (c5_get Nat ⟨FutureState.Failed, none, some "boom"⟩ "boom" 0).2.2.2.1
     rfl rfl,
   (c5_get Nat ⟨FutureState.Ready, some 7, none⟩ "x" 7).2.2.2.2 rfl rfl⟩

/-- C6: once the wait condition of Submit holds and under the queue
invariant, enqueuing keeps the queue length within maxQueueSize (and
Dequeue, CancelAllPending and Shutdown never grow it); when the pool
is stopping the wait condition holds trivially (no blocking) and
Submit returns a Future whose SharedState is already Cancelled without
touching the queue; otherwise the task is appended. -/
theorem c6_submit (p : PoolState)
    (hwait : submitWaitPred p = true)
    (hinv : p.tasks.length ≤ p.maxQueueSize) :
    (submitEnqueue p).1.tasks.length ≤ p.maxQueueSize
    ∧ (p.stopping = true → submitWaitPred p = true)
    ∧ (p.stopping = true →
        submitEnqueue p
          = (p, ⟨FutureState.Cancelled, none, none⟩)
        ∧ ((submitEnqueue p).2).state = FutureState.Cancelled)
    ∧ (p.stopping = false →
        (submitEnqueue p).1.tasks = p.tasks ++ [initState]
        ∧ (submitEnqueue p).1.tasks.length = p.tasks.length + 1)
    ∧ (dequeue p).2.tasks.length ≤ p.maxQueueSize
    ∧ (cancelAllPending p).tasks.length ≤ p.maxQueueSize
    ∧ (∀ w, (poolShutdown w p).tasks.length ≤ p.maxQueueSize) := by
  refine ⟨?_, ?_, ?_, ?_, ?_, ?_, ?_⟩
  · by_cases h : p.stopping
    · simp [submitEnqueue, h, hinv]
    · simp only [submitWaitPred, h, Bool.false_or, decide_eq_true_eq] at hwait
      simp [submitEnqueue, h]
      omega
  · intro h
    simp [submitWaitPred, h]
  · intro h
    constructor
    · simp [submitEnqueue, h, tryCancel, initState]
    · simp [submitEnqueue, h, tryCancel, initState]
  · intro h
    simp [submitEnqueue, h]
  · unfold dequeue
    by_cases h : p.stopping = true ∧ p.tasks = []
    · simp [h, hinv]
    · simp only [if_neg h]
      cases ht : p.tasks with
      | nil => simp [hinv]
      | cons t rest =>
        simp only []
        have := hinv
        rw [ht] at this
        simp at this ⊢
        omega
  · simp [cancelAllPending]
  · intro w
    by_cases h : p.stopping
    · simp [poolShutdown, h, hinv]
    · by_cases hw : w
      · simp [poolShutdown, h, hw, hinv]
      · simp [poolShutdown, h, hw]

/-- Closed witness for c6_submit: a stopping pool hands back a
cancelled SharedState without enqueuing, and a non-stopping pool with
room appends the task. -/
theorem c6_submit_witness :
    (submitEnqueue ⟨[], true, 4⟩).2.state = FutureState.Cancelled
    ∧ (submitEnqueue ⟨[], false, 4⟩).1.tasks = [initState] :=
  ⟨((c6_submit ⟨[], true, 4⟩ (by decide) (by decide)).2.2.1 rfl).2,
   ((c6_submit ⟨[], false, 4⟩ (by decide) (by decide)).2.2.2.1 rfl).1⟩

theorem lookupCat_set_self (m : List (String × Bool)) (c : String)
    (b : Bool) : lookupCat (setCategoryEnabled m c b) c = some b := by
  induction m with
  | nil => simp [setCategoryEnabled, lookupCat]
  | cons kv rest ih =>
    by_cases h : kv.1 = c
    · simp [setCategoryEnabled, lookupCat, h]
    · simp [setCategoryEnabled, lookupCat, h, ih]

theorem lookupCat_set_other (m : List (String × Bool)) (c cat : String)
    (b : Bool) (h : cat ≠ c) :
    lookupCat (setCategoryEnabled m c b) cat = lookupCat m cat := by
  have h2 : c ≠ cat := Ne.symm h
  induction m with
  | nil => simp [setCategoryEnabled, lookupCat, h, h2]
  | cons kv rest ih =>
    by_cases hk : kv.1 = c
    · simp [setCategoryEnabled, lookupCat, hk, h, h2]
    · by_cases hcat : kv.1 = cat
      · simp [setCategoryEnabled, lookupCat, hk, h, hcat]
      · simp [setCategoryEnabled, lookupCat, hk, h, hcat, ih]

/-- C7: with the runtime level at Warning, Trace, Debug and Info calls
fail the level gate before any formatting, while Warning, Error and
Fatal calls whose category passes are delivered; disabling a named
(non-empty) category suppresses exactly the calls tagged with that
category, leaves every other category's enablement unchanged, and the
empty category is always enabled. -/
theorem c7_level_category_filtering :
    (∀ (m : List (String × Bool)) (cat : String),
        writeDelivers Level.Warning m Level.Trace cat = false
        ∧ writeDelivers Level.Warning m Level.Debug cat = false
        ∧ writeDelivers Level.Warning m Level.Info cat = false)
    ∧ (∀ (m : List (String × Bool)) (cat : String),
        isCategoryEnabled m cat = true →
        writeDelivers Level.Warning m Level.Warning cat = true
        ∧ writeDelivers Level.Warning m Level.Error cat = true
        ∧ writeDelivers Level.Warning m Level.Fatal cat = true)
    ∧ (∀ (m : List (String × Bool)) (c : String) (r lvl : Level),
        c ≠ "" →
        writeDelivers r (setCategoryEnabled m c false) lvl c = false)
    ∧ (∀ (m : List (String × Bool)) (c cat : String) (b : Bool),
        cat ≠ c →
        isCategoryEnabled (setCategoryEnabled m c b) cat
          = isCategoryEnabled m cat)
    ∧ (∀ m : List (String × Bool), isCategoryEnabled m "" = true) := by
  refine ⟨?_, ?_, ?_, ?_, ?_⟩
  · intro m cat
    refine ⟨?_, ?_, ?_⟩ <;> rfl
  · intro m cat h
    refine ⟨?_, ?_, ?_⟩ <;>
      simp [writeDelivers, isLevelEnabled, levelToInt, h]
  · intro m c r lvl h
    have hc : isCategoryEnabled (setCategoryEnabled m c false) c = false := by
      simp [isCategoryEnabled, h, lookupCat_set_self]
    simp [writeDelivers, hc, h]
  · intro m c cat b h
    by_cases hc : cat = ""
    · simp [isCategoryEnabled, hc]
    · simp [isCategoryEnabled, hc, lookupCat_set_other m c cat b h]
  · intro m
    rfl

/-- Closed witness for c7_level_category_filtering: a Warning call
with an untouched category is delivered, and disabling category "net"
suppresses a call tagged "net" but not one tagged "io". -/
theorem c7_level_category_filtering_witness :
    writeDelivers Level.Warning [] Level.Error "net" = true
    ∧ writeDelivers Level.Debug (setCategoryEnabled [] "net" false)
        Level.Error "net" = false
    ∧ isCategoryEnabled (setCategoryEnabled [] "net" false) "io"
        = isCategoryEnabled [] "io" :=
  ⟨(c7_level_category_filtering.2.1 [] "net" (by decide)).2.1,
   c7_level_category_filtering.2.2.1 [] "net" Level.Debug Level.Error
     (by decide),
   c7_level_category_filtering.2.2.2.1 [] "net" "io" false (by decide)⟩

/-- C8: the fully rendered line built for the sinks has the layout
given by the specification: bracketed timestamp, thread id, level and
category fields followed by a space and the text, with the category
bracket omitted entirely when the category is empty. -/
theorem c8_rendered_line :
    ∀ msg : LogMessageM, buildFormatted msg = spec_renderedLine msg := by
  intro msg
  have m1 : ∀ x : String, "]" ++ ("[tid:" ++ x) = "][tid:" ++ x := by
    intro x
    rw [← String.append_assoc]
    rfl
  have m2 : ∀ x : String, "]" ++ ("[" ++ x) = "][" ++ x := by
    intro x
    rw [← String.append_assoc]
    rfl
  by_cases h : msg.category = ""
  · simp [buildFormatted, spec_renderedLine, h, String.join,
      String.append_assoc, m1, m2]
  · simp [buildFormatted, spec_renderedLine, h, String.join,
      String.append_assoc, m1, m2]

/-- C1 fails on the code: the operation sequence TryCancel;
MarkRunning; SetValue — exactly what the worker produces when a
Cancel lands between its IsCancelled check and MarkRunning — reaches
the terminal state Cancelled and then leaves it for Ready, and the
sequence SetValue; MarkFailed leaves both value and exception
populated at once. -/
theorem c1_counterexample :
    (runOps initState [SSOp.tryCancelOp]).state = FutureState.Cancelled
    ∧ isTerminal (runOps initState [SSOp.tryCancelOp]).state = true
    ∧ (runOps initState
        [SSOp.tryCancelOp, SSOp.markRunningOp, SSOp.setValueOp 7]).state
        = FutureState.Ready
    ∧ (runOps initState
        [SSOp.setValueOp 7, SSOp.markFailedOp "boom"]).value = some 7
    ∧ (runOps initState
        [SSOp.setValueOp 7, SSOp.markFailedOp "boom"]).exception
        = some "boom" := by
  decide

theorem applyOp_state_ne_pending (s : SharedState Nat) (op : SSOp)
    (hop : ∀ fs, op = SSOp.notifyReadyOp fs → fs ≠ FutureState.Pending)
    (hs : s.state ≠ FutureState.Pending) :
    (applyOp s op).state ≠ FutureState.Pending := by
  cases op with
  | tryCancelOp => simp [applyOp, tryCancel, hs]
  | markRunningOp => simp [applyOp, markRunning, hs]
  | setValueOp v => simp [applyOp, setValue]
  | markFailedOp e => simp [applyOp, markFailed]
  | notifyReadyOp fs => simpa [applyOp, notifyReady] using hop fs rfl

theorem runOps_state_ne_pending (ops : List SSOp)
    (hnr : ∀ fs, SSOp.notifyReadyOp fs ∈ ops → fs ≠ FutureState.Pending) :
    ∀ s : SharedState Nat, s.state ≠ FutureState.Pending →
      (runOps s ops).state ≠ FutureState.Pending := by
  induction ops with
  | nil => intro s hs; exact hs
  | cons op rest ih =>
    intro s hs
    have hop : ∀ fs, op = SSOp.notifyReadyOp fs → fs ≠ FutureState.Pending :=
      fun fs he => hnr fs (by simp [he])
    have hrest : ∀ fs, SSOp.notifyReadyOp fs ∈ rest →
        fs ≠ FutureState.Pending :=
      fun fs hm => hnr fs (by simp [hm])
    exact ih hrest (applyOp s op) (applyOp_state_ne_pending s op hop hs)

theorem runOps_observer_fix (ops : List SSOp)
    (hobs : ∀ op ∈ ops, op = SSOp.tryCancelOp ∨ op = SSOp.markRunningOp) :
    ∀ s : SharedState Nat, s.state ≠ FutureState.Pending →
      runOps s ops = s := by
  induction ops with
  | nil => intro s _; rfl
  | cons op rest ih =>
    intro s hs
    have hstep : applyOp s op = s := by
      rcases hobs op (by simp) with h | h <;> subst h
      · simp [applyOp, tryCancel, hs]
      · simp [applyOp, markRunning, hs]
    have hrest : ∀ op ∈ rest,
        op = SSOp.tryCancelOp ∨ op = SSOp.markRunningOp :=
      fun o hm => hobs o (by simp [hm])
    calc runOps s (op :: rest) = runOps (applyOp s op) rest := rfl
      _ = runOps s rest := by rw [hstep]
      _ = s := ih hrest s hs

theorem runOps_value_const (ops : List SSOp)
    (hsv : ∀ v, SSOp.setValueOp v ∉ ops) :
    ∀ s : SharedState Nat, (runOps s ops).value = s.value := by
  induction ops with
  | nil => intro s; rfl
  | cons op rest ih =>
    intro s
    have hrest : ∀ v, SSOp.setValueOp v ∉ rest := by
      intro v hm
      exact hsv v (by simp [hm])
    have hstep : (applyOp s op).value = s.value := by
      cases op with
      | tryCancelOp => by_cases h : s.state = FutureState.Pending <;>
          simp [applyOp, tryCancel, h]
      | markRunningOp => by_cases h : s.state = FutureState.Pending <;>
          simp [applyOp, markRunning, h]
      | setValueOp v => exact absurd (by simp) (hsv v)
      | markFailedOp e => simp [applyOp, markFailed]
      | notifyReadyOp fs => simp [applyOp, notifyReady]
    calc (runOps (applyOp s op) rest).value = (applyOp s op).value :=
          ih hrest (applyOp s op)
      _ = s.value := hstep

theorem runOps_exception_const (ops : List SSOp)
    (hmf : ∀ e, SSOp.markFailedOp e ∉ ops) :
    ∀ s : SharedState Nat, (runOps s ops).exception = s.exception := by
  induction ops with
  | nil => intro s; rfl
  | cons op rest ih =>
    intro s
    have hrest : ∀ e, SSOp.markFailedOp e ∉ rest := by
      intro e hm
      exact hmf e (by simp [hm])
    have hstep : (applyOp s op).exception = s.exception := by
      cases op with
      | tryCancelOp => by_cases h : s.state = FutureState.Pending <;>
          simp [applyOp, tryCancel, h]
      | markRunningOp => by_cases h : s.state = FutureState.Pending <;>
          simp [applyOp, markRunning, h]
      | setValueOp v => simp [applyOp, setValue]
      | markFailedOp e => exact absurd (by simp) (hmf e)
      | notifyReadyOp fs => simp [applyOp, notifyReady]
    calc (runOps (applyOp s op) rest).exception = (applyOp s op).exception :=
          ih hrest (applyOp s op)
      _ = s.exception := hstep

/-- C1 amended: over every operation sequence whose NotifyReady
arguments are non-Pending (the worker only ever passes Cancelled), a
state that has left Pending never returns to Pending; after leaving
Pending, TryCancel and MarkRunning never change the state at all; but
SetValue, MarkFailed and NotifyReady overwrite the state
unconditionally, so a terminal state is guaranteed to persist only
while no further completion operation is applied; value is populated
only by SetValue and exception only by MarkFailed, so at most one of
them is populated in any run from the initial state that does not
contain both operations. -/
theorem c1_amended (ops : List SSOp)
    (hnr : ∀ fs, SSOp.notifyReadyOp fs ∈ ops → fs ≠ FutureState.Pending) :
    (∀ s : SharedState Nat, s.state ≠ FutureState.Pending →
        (runOps s ops).state ≠ FutureState.Pending)
    ∧ ((∀ op ∈ ops, op = SSOp.tryCancelOp ∨ op = SSOp.markRunningOp) →
        ∀ s : SharedState Nat, s.state ≠ FutureState.Pending →
          runOps s ops = s)
    ∧ ((∀ v, SSOp.setValueOp v ∉ ops) →
        (runOps initState ops).value = none)
    ∧ ((∀ e, SSOp.markFailedOp e ∉ ops) →
        (runOps initState ops).exception = none)
    ∧ (((∀ v, SSOp.setValueOp v ∉ ops) ∨ (∀ e, SSOp.markFailedOp e ∉ ops)) →
        ¬((runOps initState ops).value.isSome = true
          ∧ (runOps initState ops).exception.isSome = true)) := by
  refine ⟨runOps_state_ne_pending ops hnr,
    fun hobs => runOps_observer_fix ops hobs, ?_, ?_, ?_⟩
  · intro hsv
    exact (runOps_value_const ops hsv initState).trans rfl
  · intro hmf
    exact (runOps_exception_const ops hmf initState).trans rfl
  · rintro (hsv | hmf) ⟨hv, he⟩
    · rw [runOps_value_const ops hsv initState] at hv
      simp [initState] at hv
    · rw [runOps_exception_const ops hmf initState] at he
      simp [initState] at he

/-- Closed witness for c1_amended: after a successful TryCancel the
state cannot be Pending again, a MarkRunning attempt on a Cancelled
state changes nothing, and a run without SetValue leaves the value
slot empty. -/
theorem c1_amended_witness :
    (runOps ⟨FutureState.Running, none, none⟩ [SSOp.tryCancelOp]).state
        ≠ FutureState.Pending
    ∧ runOps ⟨FutureState.Cancelled, none, none⟩
        [SSOp.markRunningOp, SSOp.tryCancelOp]
        = ⟨FutureState.Cancelled, none, none⟩
    ∧ (runOps initState [SSOp.tryCancelOp, SSOp.markFailedOp "x"]).value
        = none :=
  ⟨(c1_amended [SSOp.tryCancelOp] (fun fs h => by simp at h)).1
      ⟨FutureState.Running, none, none⟩ (by decide),
   (c1_amended [SSOp.markRunningOp, SSOp.tryCancelOp]
      (fun fs h => by simp at h)).2.1
      (fun op hm => by
        rcases List.mem_cons.1 hm with h | h
        · exact Or.inr h
        · exact Or.inl (by simpa using h))
      ⟨FutureState.Cancelled, none, none⟩ (by decide),
   (c1_amended [SSOp.tryCancelOp, SSOp.markFailedOp "x"]
      (fun fs h => by simp at h)).2.2.1
      (fun v => by simp)⟩

/-- C2 fails on the code in two ways.  First, a Cancel that lands
between the worker's IsCancelled check and MarkRunning (atomic point
1) returns true, yet the callable is still invoked and the state even
ends at Ready.  Second, after an earlier successful cancellation a
further Cancel returns false although the callable never ran and is
not running (the state is Cancelled). -/
theorem c2_counterexample :
    ((runWorkerCancel 1 false 7).cancelRet = true
      ∧ (runWorkerCancel 1 false 7).invoked = true
      ∧ (runWorkerCancel 1 false 7).final.state = FutureState.Ready)
    ∧ ((runWorkerCancel 0 false 7).cancelRet = true
      ∧ (runWorkerCancel 0 false 7).invoked = false
      ∧ (tryCancel (runWorkerCancel 0 false 7).final).2 = false
      ∧ (runWorkerCancel 0 false 7).final.state
          = FutureState.Cancelled) := by
  decide

/-- C2 amended: TryCancel (and hence Future::Cancel on a valid
Future) returns true and transitions to Cancelled exactly when the
current state is Pending, and returns false leaving the state
untouched otherwise.  If Cancel returns true and the cancellation
precedes the worker's IsCancelled check, the callable is never
invoked; however a cancellation landing between that check and
MarkRunning also returns true while the callable still runs.  If the
only Cancel issued returns false, the callable either already ran or
is currently running. -/
theorem c2_amended :
    (∀ (α : Type) (s : SharedState α),
        ((tryCancel s).2 = true ↔ s.state = FutureState.Pending)
        ∧ ((tryCancel s).2 = true →
            (tryCancel s).1.state = FutureState.Cancelled)
        ∧ ((tryCancel s).2 = false → (tryCancel s).1 = s))
    ∧ (∀ (fnFails : Bool) (v : Nat),
        (runWorkerCancel 0 fnFails v).cancelRet = true
        ∧ (runWorkerCancel 0 fnFails v).invoked = false
        ∧ (runWorkerCancel 0 fnFails v).final.state = FutureState.Cancelled)
    ∧ (∀ (cancelPos : Nat) (fnFails : Bool) (v : Nat),
        (runWorkerCancel cancelPos fnFails v).cancelRet = false →
        (runWorkerCancel cancelPos fnFails v).invoked = true) := by
  refine ⟨?_, ?_, ?_⟩
  · intro α s
    by_cases h : s.state = FutureState.Pending
    · simp [tryCancel, h]
    · simp [tryCancel, h]
  · intro fnFails v
    exact ⟨rfl, rfl, rfl⟩
  · intro cancelPos fnFails v h
    cases cancelPos with
    | zero =>
      rw [show (runWorkerCancel 0 fnFails v).cancelRet = true from rfl] at h
      cases h
    | succ n => rfl

/-- Closed witness for c2_amended: TryCancel succeeds on the fresh
Pending state, a cancel before the worker's check prevents the
callable, and when the single cancel fails (point 2, after
MarkRunning) the callable did run. -/
theorem c2_amended_witness :
    (tryCancel initState).2 = true
    ∧ (runWorkerCancel 0 true 5).invoked = false
    ∧ (runWorkerCancel 2 false 5).invoked = true :=
  ⟨(c2_amended.1 Nat initState).1.mpr rfl,
   (c2_amended.2.1 true 5).2.1,
   c2_amended.2.2 2 false 5 (by decide)⟩

theorem rotateLoop_high (n : Nat) :
    ∀ (files : Nat → Option String) (k : Nat), n < k →
      rotateLoop files n k = files k := by
  induction n with
  | zero => intro files k _; rfl
  | succ m ih =>
    intro files k hk
    have h1 : m < k := Nat.lt_of_succ_lt hk
    have h2 : k ≠ m + 1 := Nat.ne_of_gt hk
    have h3 : k ≠ m := Nat.ne_of_gt h1
    rw [rotateLoop, ih (renameStep files m) k h1]
    unfold renameStep
    cases hf : files m with
    | none => rfl
    | some c => simp [h2, h3]

theorem rotateLoop_shift (n : Nat) :
    ∀ (files : Nat → Option String) (i : Nat), i < n →
      (files i).isSome = true → rotateLoop files n (i + 1) = files i := by
  induction n with
  | zero => intro files i hi _; exact absurd hi (Nat.not_lt_zero i)
  | succ m ih =>
    intro files i hi hsome
    rw [rotateLoop]
    rcases Nat.lt_succ_iff_lt_or_eq.1 hi with hlt | heq
    · have hne1 : i ≠ m + 1 := Nat.ne_of_lt (Nat.lt_succ_of_lt hlt)
      have hne2 : i ≠ m := Nat.ne_of_lt hlt
      have hkeep : renameStep files m i = files i := by
        unfold renameStep
        cases hf : files m with
        | none => rfl
        | some c => simp [hne1, hne2]
      have hsome2 : (renameStep files m i).isSome = true := by
        rw [hkeep]; exact hsome
      rw [ih (renameStep files m) i hlt hsome2, hkeep]
    · subst heq
      rw [rotateLoop_high i (renameStep files i) (i + 1) (Nat.lt_succ_self i)]
      unfold renameStep
      cases hf : files i with
      | none => rw [hf] at hsome; cases hsome
      | some c => simp [hf]

theorem rotateLoop_zero (n : Nat) :
    ∀ files : Nat → Option String, rotateLoop files (n + 1) 0 = none := by
  induction n with
  | zero =>
    intro files
    rw [rotateLoop, rotateLoop]
    unfold renameStep
    cases hf : files 0 with
    | none => exact hf
    | some c => simp
  | succ m ih =>
    intro files
    rw [rotateLoop]
    exact ih (renameStep files (m + 1))

/-- C3 fails on the code at the boundary: with maxBytes = 10, tracked
size 5 and an incoming record of size 5 (so the size would exactly
equal maxBytes), the code rotates — the tracked size resets to 0, the
old active file becomes generation 1 and a fresh empty active file is
opened — whereas the claim says no rotation occurs at equality. -/
theorem c3_counterexample :
    (rotateIfNeeded ⟨10, 3⟩ 5
        ⟨fun k => if k = 0 then some "aaaaa" else none, 5, true⟩).currentSize
        = 0
    ∧ (rotateIfNeeded ⟨10, 3⟩ 5
        ⟨fun k => if k = 0 then some "aaaaa" else none, 5, true⟩).files 1
        = some "aaaaa"
    ∧ (rotateIfNeeded ⟨10, 3⟩ 5
        ⟨fun k => if k = 0 then some "aaaaa" else none, 5, true⟩).files 0
        = some "" := by
  refine ⟨rfl, ?_, ?_⟩ <;> rfl

/-- C3 amended: with the stream open, RotateIfNeeded is the identity
exactly when maxBytes is 0, maxFiles is 0, or the tracked size plus
the incoming record stays strictly below maxBytes; it rotates exactly
when both options are non-zero and the size would reach or exceed
maxBytes (in particular also at exact equality), and then the tracked
size resets to 0, a fresh empty active file is opened and each
existing generation i < maxFiles is renamed to generation i + 1. -/
theorem c3_amended (opts : FileSinkOptions) (st : FsState) (msgSize : Nat)
    (hopen : st.streamOpen = true) :
    ((opts.maxBytes = 0 ∨ opts.maxFiles = 0
        ∨ st.currentSize + msgSize < opts.maxBytes) →
      rotateIfNeeded opts msgSize st = st)
    ∧ ((opts.maxBytes ≠ 0 ∧ opts.maxFiles ≠ 0
        ∧ opts.maxBytes ≤ st.currentSize + msgSize) →
      (rotateIfNeeded opts msgSize st).currentSize = 0
      ∧ (rotateIfNeeded opts msgSize st).files 0 = some ""
      ∧ (∀ i, i < opts.maxFiles → ((st.files i).isSome = true) →
          (rotateIfNeeded opts msgSize st).files (i + 1) = st.files i)) := by
  constructor
  · rintro (h | h | h)
    · simp [rotateIfNeeded, h]
    · simp [rotateIfNeeded, h]
    · by_cases h1 : opts.maxBytes = 0
      · simp [rotateIfNeeded, h1]
      · by_cases h2 : opts.maxFiles = 0
        · simp [rotateIfNeeded, h1, h2, hopen]
        · simp [rotateIfNeeded, h1, h2, hopen, h]
  · rintro ⟨h1, h2, h3⟩
    have hnlt : ¬(st.currentSize + msgSize < opts.maxBytes) :=
      Nat.not_lt.2 h3
    have hrot : rotateIfNeeded opts msgSize st =
        { openFile { files := rotateLoop st.files opts.maxFiles,
                     currentSize := st.currentSize,
                     streamOpen := false } with currentSize := 0 } := by
      simp [rotateIfNeeded, h1, h2, hopen, hnlt]
    obtain ⟨mf, hmf⟩ : ∃ mf, opts.maxFiles = mf + 1 :=
      ⟨opts.maxFiles - 1, (Nat.succ_pred_eq_of_pos (Nat.pos_of_ne_zero h2)).symm⟩
    have hzero : rotateLoop st.files opts.maxFiles 0 = none := by
      rw [hmf]; exact rotateLoop_zero mf st.files
    refine ⟨by rw [hrot], ?_, ?_⟩
    · rw [hrot]
      simp [openFile, hzero]
    · intro i hi hsome
      rw [hrot]
      have hne : i + 1 ≠ 0 := Nat.succ_ne_zero i
      simp only [openFile, hne, if_neg hne]
      exact rotateLoop_shift opts.maxFiles st.files i hi hsome

/-- Closed witness for c3_amended, exercising both branches: no
rotation with room to spare, rotation with generation shift at the
limit. -/
theorem c3_amended_witness :
    rotateIfNeeded ⟨10, 3⟩ 4
        ⟨fun k => if k = 0 then some "aaaaa" else none, 5, true⟩
      = ⟨fun k => if k = 0 then some "aaaaa" else none, 5, true⟩
    ∧ (rotateIfNeeded ⟨10, 2⟩ 6
        ⟨fun k => if k = 0 then some "bbbb" else none, 4, true⟩).files 1
      = some "bbbb" :=
  ⟨(c3_amended ⟨10, 3⟩
      ⟨fun k => if k = 0 then some "aaaaa" else none, 5, true⟩ 4 rfl).1
      (Or.inr (Or.inr (by decide))),
   (((c3_amended ⟨10, 2⟩
      ⟨fun k => if k = 0 then some "bbbb" else none, 4, true⟩ 6 rfl).2
      ⟨by decide, by decide, by decide⟩).2.2 0 (by decide) (by decide))⟩

/-- C4 fails on the code once the arguments run out: with an empty
argument list a double open brace is NOT unescaped (the output keeps
both braces) and an unmatched open brace is NOT a formatting error
(the text is copied as-is), while the very same format text with one
argument remaining unescapes the double open brace to a single brace.
Double close braces still collapse even after the arguments ran out. -/
theorem c4_counterexample :
    fmtFormat [lbrace, lbrace] [] = Except.ok [lbrace, lbrace]
    ∧ fmtFormat [lbrace] [] = Except.ok [lbrace]
    ∧ fmtFormat [lbrace, lbrace] ["1"] = Except.ok [lbrace]
    ∧ fmtFormat [lbrace] ["1"] = Except.error fmtErrMsg
    ∧ fmtFormat [rbrace, rbrace] [] = Except.ok [rbrace] := by
  exact ⟨rfl, rfl, rfl, rfl, rfl⟩

/-- C4 amended: while arguments remain to be consumed, a double open
brace and a double close brace are literal-brace escapes and an
unmatched open brace is a formatting error; once all arguments are
consumed — including when the argument list is empty — the remaining
format text is appended literally with only the double close brace
collapsing to a single one: a double open brace stays two braces and
an unmatched open brace is not an error there.  A placeholder with no
corresponding argument is left as-is in the output, and extra
arguments beyond the placeholder count are silently unused. -/
theorem c4_amended :
    (∀ (out rest : List Char),
        replaceNext out (lbrace :: lbrace :: rest)
          = replaceNext (out ++ [lbrace]) rest)
    ∧ (∀ (out rest : List Char),
        replaceNext out (rbrace :: rbrace :: rest)
          = replaceNext (out ++ [rbrace]) rest)
    ∧ (∀ (out rest : List Char),
        rest.head? ≠ some lbrace → dropToClose rest = none →
        replaceNext out (lbrace :: rest) = Except.error fmtErrMsg)
    ∧ (∀ (out fmt : List Char),
        formatImpl out fmt [] = Except.ok (appendLiteral out fmt))
    ∧ (∀ (out fmt : List Char),
        appendLiteral out (lbrace :: fmt)
          = appendLiteral (out ++ [lbrace]) fmt)
    ∧ (∀ (out : List Char) (args : List String),
        formatImpl out [] args = Except.ok out)
    ∧ fmtFormat [lbrace, rbrace] [] = Except.ok [lbrace, rbrace] := by
  refine ⟨?_, ?_, ?_, ?_, ?_, ?_, rfl⟩
  · intro out rest
    rfl
  · intro out rest
    rfl
  · intro out rest h1 h2
    cases rest with
    | nil => rfl
    | cons d rest2 =>
      have hd : ¬(d = lbrace) := by
        intro he
        exact h1 (by simp [he])
      simp [replaceNext, hd, h2]
  · intro out fmt
    rfl
  · intro out fmt
    cases fmt with
    | nil => rfl
    | cons d rest2 => simp [appendLiteral, lbrace, rbrace]
  · intro out args
    induction args with
    | nil => rfl
    | cons a rest ih => simpa [formatImpl, replaceNext] using ih


/-- Closed witness for c4_amended: an unmatched open brace with one
argument remaining is the formatting error. -/
theorem c4_amended_witness :
    replaceNext [] [lbrace] = Except.error fmtErrMsg :=
  c4_amended.2.2.1 [] [] (by simp) rfl

end ToyFrameV
